import Mathlib

/-!
Verification of the rockethook client library.

Shallow embedding of `src/rockethook/__init__.py` (a Rocket.Chat
incoming-webhook client) and proofs about its behaviour.

Python strings are modelled as `List Char` (named `Str` below); Python's
dynamic JSON values as the inductive `Jval`; the `requests` transport
boundary as an oracle `NetOutcome` describing what the single
`requests.post` call would observe (a timeout, a connection failure, or a
response with a status code and a body whose `response.json()` outcome is
an `Option Jval` — `none` models a `JSONDecodeError`).
-/

set_option linter.unusedVariables false

namespace Rockethook

/-- Python strings, modelled as lists of characters. -/
abbrev Str := List Char

/-- A JSON value (the result of `response.json()`, or a value stored in a
payload dictionary). -/
inductive Jval where
  | null
  | bool (b : Bool)
  | num (n : Int)
  | str (s : Str)
  | arr (xs : List Jval)
  | obj (kvs : List (Str × Jval))

/-- State of a `Message` object: `__init__` takes `text` (default the
empty string), `channel` and `icon_url` (default `None`), and the
`attachments` list starts empty. An attachment is the `**kwargs` dict of
`add_attachment`, i.e. an ordered string-keyed mapping. -/
structure Message where
  text : Str
  channel : Option Str
  icon_url : Option Str
  attachments : List (List (Str × Jval))

/-- Model of `Message.__init__`: stores the three arguments and an empty
`attachments` list. -/
def Message.init (text : Str) (channel icon_url : Option Str) : Message :=
  ⟨text, channel, icon_url, []⟩

/-- Model of `Message.append_text(self, text_to_append, delimiter)`
(default delimiter: a newline): when `self.text` is truthy (non-empty)
append `self.text + delimiter + text_to_append`, else set `self.text`
to `text_to_append`. -/
def Message.append_text (m : Message) (text_to_append delimiter : Str) : Message :=
  if m.text ≠ [] then
    ⟨m.text ++ delimiter ++ text_to_append, m.channel, m.icon_url, m.attachments⟩
  else
    ⟨text_to_append, m.channel, m.icon_url, m.attachments⟩

/-- Model of `Message.add_attachment(self, **kwargs)`:
`self.attachments.append(kwargs)`. -/
def Message.add_attachment (m : Message) (kwargs : List (Str × Jval)) : Message :=
  ⟨m.text, m.channel, m.icon_url, m.attachments ++ [kwargs]⟩

/-!
Model of `urllib.parse.urlparse`, restricted to the fragment the library
uses: `Webhook.__init__` calls `urlparse(server_url)` and reads `.scheme`,
`.netloc` and `.path`.  We model the CPython `urlsplit`/`urlparse`:
leading C0-control/space stripping, removal of `\t`, `\r`, `\n`,
scheme extraction (letters/digits/`+`/`-`/`.` before the first `:`,
lowercased, first character alphabetic), netloc extraction after a
leading `//` up to the first `/`, `?` or `#`, fragment and query
splitting, and the `urlparse` params split on the path.  The
`ValueError` checks CPython runs on the extracted netloc are modelled by
`netlocChecks`/`urlsplitChecks`: an unbalanced `[`/`]` pair raises
Invalid IPv6 URL (`invalidIpv6`); a balanced bracket pair triggers the
bracketed-host validation and a non-ASCII netloc triggers the NFKC
`_checknetloc` validation, neither of which is decided here
(`beyondModel`); otherwise no check raises (`passes`) and the component
values computed by `urlsplitModel` are exactly the ones CPython returns.
Every theorem below about `Webhook.init` proves that its inputs yield
`passes`. -/

/-- Characters allowed in a URL scheme (`urllib.parse.scheme_chars`). -/
def isSchemeChar (c : Char) : Bool :=
  c.isAlpha || c.isDigit || c == '+' || c == '-' || c == '.'

/-- The bytes CPython removes from a URL before parsing
(`_UNSAFE_URL_BYTES_TO_REMOVE`): tab, carriage return, newline. -/
def badUrlByte (c : Char) : Bool :=
  c == '\t' || c == '\r' || c == '\n'

/-- Scheme extraction step of `urlsplit`: if the URL has a `:` at position
`i > 0` and everything before it is a valid scheme (first character
alphabetic, all characters in `scheme_chars`), the scheme is that prefix
lowercased and the rest follows the colon; otherwise the scheme is empty. -/
def splitScheme (url : Str) : Str × Str :=
  let pre := url.takeWhile (fun c => c != ':')
  if (decide (pre.length < url.length) && !pre.isEmpty
      && (match url with | c :: _ => c.isAlpha | [] => false)
      && pre.all isSchemeChar) = true then
    (pre.map Char.toLower, url.drop (pre.length + 1))
  else
    ([], url)

/-- True for characters that end a netloc (`/`, `?` or `#`). -/
def notNetlocDelim (c : Char) : Bool :=
  !(c == '/' || c == '?' || c == '#')

/-- Netloc extraction step of `urlsplit`: if the first two characters are
slashes, the netloc runs from position 2 to the first `/`, `?` or `#`. -/
def splitNetlocAt2 (url : Str) : Str × Str :=
  if url.take 2 = ['/', '/'] then
    ((url.drop 2).takeWhile notNetlocDelim, (url.drop 2).dropWhile notNetlocDelim)
  else
    ([], url)

/-- Result of `urlparse`: the components the library can read. -/
structure ParseResult where
  scheme : Str
  netloc : Str
  path : Str
  params : Str
  query : Str
  fragment : Str

/-- Component values of `urllib.parse.urlsplit` (with
`allow_fragments=True`); `params` left empty, to be filled in by
`urlparseModel`.  Faithful whenever `urlsplitChecks` yields `passes`
(CPython raises `ValueError` on `invalidIpv6` and runs undecided further
validation on `beyondModel`). -/
def urlsplitModel (rawUrl : Str) : ParseResult :=
  let url0 := rawUrl.dropWhile (fun c => decide (c.val ≤ 0x20))
  let url1 := url0.filter (fun c => !badUrlByte c)
  let sr := splitScheme url1
  let nr := splitNetlocAt2 sr.2
  let uf := nr.2.takeWhile (fun c => c != '#')
  let fragment := (nr.2.dropWhile (fun c => c != '#')).drop 1
  let up := uf.takeWhile (fun c => c != '?')
  let query := (uf.dropWhile (fun c => c != '?')).drop 1
  ⟨sr.1, nr.1, up, [], query, fragment⟩

/-- True for ASCII characters (Python `str.isascii`: every code point
below 128). -/
def asciiChar (c : Char) : Bool :=
  decide (c.val ≤ 0x7f)

/-- Outcome of the `ValueError` checks CPython `urlsplit` runs on the
extracted netloc: `passes` when no check can raise, `invalidIpv6` for the
Invalid IPv6 URL error on an unbalanced bracket pair, and `beyondModel`
when CPython runs a validation this model does not decide (the
bracketed-host check for a balanced `[`/`]` pair, or the NFKC
`_checknetloc` check for a non-empty non-ASCII netloc). -/
inductive CheckOutcome where
  | passes
  | invalidIpv6
  | beyondModel
deriving DecidableEq

/-- Model of the netloc checks of CPython `urlsplit`: first the
unbalanced-bracket test that raises Invalid IPv6 URL, then the
bracketed-host validation when both brackets occur, then `_checknetloc`,
which returns immediately for an empty or all-ASCII netloc and otherwise
runs the NFKC validation. -/
def netlocChecks (netloc : Str) : CheckOutcome :=
  if ('[' ∈ netloc ∧ ']' ∉ netloc) ∨ (']' ∈ netloc ∧ '[' ∉ netloc) then .invalidIpv6
  else if '[' ∈ netloc ∧ ']' ∈ netloc then .beyondModel
  else if ¬ (netloc = [] ∨ netloc.all asciiChar = true) then .beyondModel
  else .passes

/-- The netloc checks applied to the netloc `urlsplitModel` extracts
(CPython runs them between netloc extraction and returning, on the same
netloc value). -/
def urlsplitChecks (rawUrl : Str) : CheckOutcome :=
  netlocChecks (urlsplitModel rawUrl).netloc

/-- Model of `urllib.parse._splitparams`: split `;params` off the last
path segment (off the whole path when it contains no `/`). -/
def splitParams (url : Str) : Str × Str :=
  if url.any (fun c => c == '/') = true then
    let tail0 := (url.reverse.takeWhile (fun c => c != '/')).reverse
    if tail0.any (fun c => c == ';') = true then
      let rest := tail0.dropWhile (fun c => c != ';')
      (url.take (url.length - rest.length), rest.drop 1)
    else (url, [])
  else
    (url.takeWhile (fun c => c != ';'), (url.dropWhile (fun c => c != ';')).drop 1)

/-- Model of `urllib.parse.urlparse`: `urlsplit` plus the params split on
the path. -/
def urlparseModel (rawUrl : Str) : ParseResult :=
  let s := urlsplitModel rawUrl
  if s.path.any (fun c => c == ';') = true then
    let pp := splitParams s.path
    ⟨s.scheme, s.netloc, pp.1, pp.2, s.query, s.fragment⟩
  else s

/-- State of a `Webhook` object: exactly the four attributes `__init__`
stores. -/
structure Webhook where
  scheme : Str
  server_fqdn : Str
  token : Str
  send_msg_timeout_secs : Int

/-- Model of `Webhook.__init__(self, server_url, token, send_msg_timeout_secs=30)`:
it sets `parsed = urlparse(server_url)`, stores `parsed.scheme` as the
scheme and `parsed.netloc` as `server_fqdn` when the netloc is non-empty
(else the part of `parsed.path` before the first slash, which is
`parsed.path.split(slash)[0]`), and stores `token` and
`send_msg_timeout_secs` unchanged. -/
def Webhook.init (server_url token : Str) (send_msg_timeout_secs : Int) : Webhook :=
  let parsed := urlparseModel server_url
  ⟨parsed.scheme,
   if parsed.netloc ≠ [] then parsed.netloc
   else parsed.path.takeWhile (fun c => c != '/'),
   token,
   send_msg_timeout_secs⟩

/-- A Python attribute value stored on a `Webhook` object. -/
inductive PyAttr where
  | str (s : Str)
  | int (n : Int)

/-- Python attribute lookup on a `Webhook` instance.  `__init__` stores
exactly the four attributes below; looking up any other name raises
`AttributeError`, modelled as `none`. -/
def Webhook.getattr (w : Webhook) (name : String) : Option PyAttr :=
  if name = "scheme" then some (.str w.scheme)
  else if name = "server_fqdn" then some (.str w.server_fqdn)
  else if name = "token" then some (.str w.token)
  else if name = "send_msg_timeout_secs" then some (.int w.send_msg_timeout_secs)
  else none

/-!
Model of `WebhookError` and `Webhook.post`. -/

/-- State of a `WebhookError` exception: `__init__(self, status, message)`
stores `status` and, as `self.message`, the given message prefixed with
the fixed format text (see `errFormat`). -/
structure WebhookError where
  status : Int
  message : Str
deriving DecidableEq

/-- The fixed prefix text of every stored `WebhookError` message:
the words "Rocket.Chat server error, code ", then the status formatted as
Python `str(status)` does (decimal with a leading minus sign when
negative, exactly `toString (status : Int)`), then a colon and space. -/
def errFormat (status : Int) : Str :=
  "Rocket.Chat server error, code ".toList ++ (toString status).toList ++ ": ".toList

/-- Model of the constructor call `WebhookError(status, message)`. -/
def mkWebhookError (status : Int) (message : Str) : WebhookError :=
  ⟨status, errFormat status ++ message⟩

/-- Message raised by the `except requests.Timeout` handler. -/
def timeoutMsg : Str := "Timeout while sending Rocket message".toList

/-- Message raised by the `except requests.ConnectionError` handler. -/
def connectMsg : Str := "Unable to connect to Rocket API".toList

/-- Message raised by the bare `except` handler: the fixed text followed
by the `traceback.format_exc()` output, for which `tb` stands in. -/
def unknownMsg (tb : Str) : Str :=
  "Unknown exception while sending Rocket message: ".toList ++ tb

/-- What the single `requests.post` call would observe, were it executed:
a timeout (`requests.Timeout`), a connection failure
(`requests.ConnectionError`), or an HTTP response carrying
`response.status_code` and the outcome of `response.json()`
(`none` models a body that is not valid JSON, where `.json()` raises). -/
inductive NetOutcome where
  | timeout
  | connError
  | response (status : Int) (body : Option Jval)

/-- An exception escaping the `try` block of `post`. -/
inductive PyExc where
  | attrError (name : String)
  | timeoutExc
  | connExc
  | jsonDecodeExc
  | typeErrorExc
  | webhookExc (status : Int) (errMsg : Jval)

/-- Python `needle in hay` for strings: substring test. -/
def strContains (needle : Str) : Str → Bool
  | [] => needle.isEmpty
  | c :: t => needle.isPrefixOf (c :: t) || strContains needle t

/-- The Python `if k in data: v = data[k]` on a parsed JSON value:
for a dict, key membership then lookup; for a list, membership succeeds
only for an equal string element, and the subsequent string indexing
raises `TypeError`; for a string, membership is a substring test and
indexing raises `TypeError`; for any other value the membership test
itself raises `TypeError`.  `.error ()` models a raised `TypeError`,
`.ok none` a failed membership test. -/
def tryGetKey (k : Str) (data : Jval) : Except Unit (Option Jval) :=
  match data with
  | .obj kvs =>
    match kvs.find? (fun p => p.1 == k) with
    | some p => .ok (some p.2)
    | none => .ok none
  | .arr xs =>
    if xs.any (fun v => match v with | .str s => s == k | _ => false) then .error ()
    else .ok none
  | .str s => if strContains k s then .error () else .ok none
  | _ => .error ()

/-- The `try` block of `Webhook.post` (lines 84–95).  Evaluation of the
`requests.post` call arguments reads `self.send_msg_timeout_sec` — a
misspelling of the stored attribute `send_msg_timeout_secs` — so an
`AttributeError` is raised before the request is issued.  The remaining
branches model what the block would do past that point: the request
outcome, unconditional `response.json()`, and for a non-200 status the
`error`/`message` key extraction followed by
`raise WebhookError(response.status_code, err_msg)` (an exception which,
being raised inside the `try`, escapes into the handlers below). -/
def postTry (w : Webhook) (env : NetOutcome) : Except PyExc Unit :=
  match w.getattr "send_msg_timeout_sec" with
  | none => .error (.attrError "send_msg_timeout_sec")
  | some _ =>
    match env with
    | .timeout => .error .timeoutExc
    | .connError => .error .connExc
    | .response status body =>
      match body with
      | none => .error .jsonDecodeExc
      | some data =>
        if status ≠ 200 then
          match tryGetKey "error".toList data with
          | .error _ => .error .typeErrorExc
          | .ok (some v) => .error (.webhookExc status v)
          | .ok none =>
            match tryGetKey "message".toList data with
            | .error _ => .error .typeErrorExc
            | .ok (some v) => .error (.webhookExc status v)
            | .ok none => .error (.webhookExc status data)
        else .ok ()

/-- The `payload_dict` built by `post` (lines 71–79): keys are added in
the order `text`, `channel`, `icon_url`, `attachments`, each only when the
corresponding field is truthy (`None` and empty strings/lists are falsy). -/
def buildPayloadDict (m : Message) : List (Str × Jval) :=
  (if m.text ≠ [] then [("text".toList, Jval.str m.text)] else [])
  ++ (match m.channel with
      | some c => if c ≠ [] then [("channel".toList, Jval.str c)] else []
      | none => [])
  ++ (match m.icon_url with
      | some u => if u ≠ [] then [("icon_url".toList, Jval.str u)] else []
      | none => [])
  ++ (if m.attachments.isEmpty then []
      else [("attachments".toList, Jval.arr (m.attachments.map Jval.obj))])

/-- The argument passed to `Webhook.post`: either a `Message` instance or
a value of any other type (carrying an opaque description of itself). -/
inductive PyArg where
  | msg (m : Message)
  | notMessage (reprStr : String)

/-- Outcome of a `Webhook.post` call: normal return, an uncaught
`AssertionError` from the `assert type(message) is Message` precondition,
or a raised `WebhookError`. -/
inductive PostResult where
  | ok
  | assertionError
  | error (e : WebhookError)
deriving DecidableEq

/-- Model of `Webhook.post(self, message)`.  The assert runs first; then
the payload dict is built and form-encoded (the encoding does not
influence the observable outcome and is not modelled further); then the
`try` block runs and its exception, if any, is translated by the
handlers: `except requests.Timeout` to a `WebhookError` with status -1
and `timeoutMsg`, `except requests.ConnectionError` to status -1 and
`connectMsg`, and the bare `except` to status -1 and `unknownMsg tb`,
where `tb` stands for the `traceback.format_exc()` text. -/
def Webhook.post (w : Webhook) (message : PyArg) (env : NetOutcome) (tb : Str) : PostResult :=
  match message with
  | .notMessage _ => .assertionError
  | .msg m =>
    let payload_dict := buildPayloadDict m
    match postTry w env with
    | .ok _ => .ok
    | .error .timeoutExc => .error (mkWebhookError (-1) timeoutMsg)
    | .error .connExc => .error (mkWebhookError (-1) connectMsg)
    | .error _ => .error (mkWebhookError (-1) (unknownMsg tb))

/-- Model of `Webhook.quick_post(self, text)`:
`self.post(Message(text=text))`. -/
def Webhook.quick_post (w : Webhook) (text : Str) (env : NetOutcome) (tb : Str) : PostResult :=
  w.post (.msg (Message.init text none none)) env tb

/-!
Concrete objects used by the claim theorems, and the remaining
definitions the claims refer to. -/

/-- Example webhook built from the URL https://chat.example.com and the
token string token123. -/
def wEx : Webhook := Webhook.init "https://chat.example.com".toList "token123".toList 30

/-- Example message whose only content is the text "hi". -/
def mEx : Message := Message.init "hi".toList none none

/-- A stand-in for the `traceback.format_exc()` text produced when the
misspelled attribute read raises `AttributeError`. -/
def tbEx : Str := "Traceback (most recent call last): AttributeError".toList

/-- A sequence of `append_text(text, delimiter)` calls, in order. -/
def appendCalls (m : Message) (calls : List (Str × Str)) : Message :=
  calls.foldl (fun acc c => acc.append_text c.1 c.2) m

/-- Definition following the words of the spec, for comparison with
`appendCalls`: the call arguments joined by the delimiter supplied at
each step, with no leading delimiter before the first argument. -/
def joinedCallsSpec : List (Str × Str) → Str
  | [] => []
  | c :: rest => c.1 ++ (rest.map (fun d => d.2 ++ d.1)).flatten

/-- The lowercase ASCII letters (well-formed scheme characters for C5). -/
def lowerAlpha : Str :=
  ['a', 'b', 'c', 'd', 'e', 'f', 'g', 'h', 'i', 'j', 'k', 'l', 'm',
   'n', 'o', 'p', 'q', 'r', 's', 't', 'u', 'v', 'w', 'x', 'y', 'z']

/-- Characters admitted in a `host[:port]` authority for the C5 theorem:
printable ASCII (no C0 control or space, code point below 128), none of
the netloc delimiters `/`, `?`, `#`, and no square brackets — so the
netloc the theorem builds passes every CPython `ValueError` check
(`netlocChecks`). -/
def hostChar (c : Char) : Bool :=
  !decide (c.val ≤ 0x20) && asciiChar c && notNetlocDelim c && !(c == '[' || c == ']')

/-- Characters admitted in a bare scheme-less server string for the C5
theorem: printable and none of `:`, `?`, `#`, `;` (slashes allowed). -/
def bareChar (c : Char) : Bool :=
  !decide (c.val ≤ 0x20) && !(c == ':' || c == '?' || c == '#' || c == ';')

/-- Key fact: any call of `post` with a `Message` argument raises a
`WebhookError` with status -1 and the unknown-exception message:
evaluating the `requests.post` arguments reads the misspelled attribute
`send_msg_timeout_sec`, the `AttributeError` is caught by the bare
`except`, and the request is never issued. -/
theorem post_always_unknown_error (w : Webhook) (m : Message) (env : NetOutcome) (tb : Str) :
    w.post (.msg m) env tb = .error (mkWebhookError (-1) (unknownMsg tb)) := rfl

/-!
Claim theorems. -/

/-- C1 (code bug): the claim says a completed POST answered with HTTP
200 makes `post` return normally.  On the code, a 200 response (here with
a JSON body) still yields a `WebhookError` with status -1 and the
unknown-exception message, and `post` does not return normally: line 85
reads `self.send_msg_timeout_sec` although `__init__` stored
`send_msg_timeout_secs`, so an `AttributeError` is raised inside the
`try` and the bare `except` converts it. -/
theorem c1_http200_raises_not_ok :
    wEx.post (.msg mEx)
        (.response 200 (some (Jval.obj [("success".toList, Jval.bool true)]))) tbEx
      = .error (mkWebhookError (-1) (unknownMsg tbEx))
    ∧ wEx.post (.msg mEx)
        (.response 200 (some (Jval.obj [("success".toList, Jval.bool true)]))) tbEx
      ≠ .ok :=
  ⟨rfl, fun h => nomatch h⟩

/-- C2 (code bug): the claim says a 403 response whose JSON body maps
the key error to the value "invalid token" yields a `WebhookError` with
status 403 and message "invalid token".  On the code the misspelled
timeout attribute raises first, so the result is a `WebhookError` with
status -1 and the unknown-exception message; status 403 is never reported
(and even absent that bug, the status-403 `WebhookError` raised inside
the `try` would be caught by the bare `except` and replaced by the
status -1 error). -/
theorem c2_http403_status_lost :
    wEx.post (.msg mEx)
        (.response 403 (some (Jval.obj [("error".toList, Jval.str "invalid token".toList)]))) tbEx
      = .error (mkWebhookError (-1) (unknownMsg tbEx))
    ∧ (mkWebhookError (-1) (unknownMsg tbEx)).status ≠ 403 :=
  ⟨rfl, by decide⟩

/-- C3 (code bug): the claim says a 500 response with a non-JSON body
yields a `WebhookError` with status 500 and a fixed "not a valid API
response" message.  On the code the result is a `WebhookError` with
status -1 and the unknown-exception message — the misspelled timeout
attribute raises first, no such fixed string exists anywhere in the
source, and even absent that bug a `response.json()` failure would be
caught by the bare `except`, again giving status -1. -/
theorem c3_http500_nonjson_status_lost :
    wEx.post (.msg mEx) (.response 500 none) tbEx
      = .error (mkWebhookError (-1) (unknownMsg tbEx))
    ∧ (mkWebhookError (-1) (unknownMsg tbEx)).status ≠ 500 :=
  ⟨rfl, by decide⟩

/-- C4 (code bug): the claim says a timeout carries the fixed timeout
message and a connection failure the fixed "unable to connect" message
(status -1 each).  On the code the status is indeed -1, but in a
timeout or connection-failure environment the message is the
unknown-exception one: the misspelled timeout attribute raises before
`requests.post` runs, so `requests.Timeout` and `requests.ConnectionError`
can never be raised and their handlers are dead code. -/
theorem c4_transport_failure_messages :
    wEx.post (.msg mEx) NetOutcome.timeout tbEx
      = .error (mkWebhookError (-1) (unknownMsg tbEx))
    ∧ wEx.post (.msg mEx) NetOutcome.connError tbEx
      = .error (mkWebhookError (-1) (unknownMsg tbEx))
    ∧ unknownMsg tbEx ≠ timeoutMsg
    ∧ unknownMsg tbEx ≠ connectMsg :=
  ⟨rfl, rfl, by decide, by decide⟩

/-- C8: `post` called with a non-`Message` argument fails with the
`AssertionError` of `assert type(message) is Message` — before the
payload is built and regardless of the network environment — and that
failure is not a `WebhookError`. -/
theorem c8_non_message_argument (w : Webhook) (v : String) (env : NetOutcome) (tb : Str) :
    w.post (.notMessage v) env tb = .assertionError
    ∧ ∀ e : WebhookError, w.post (.notMessage v) env tb ≠ .error e :=
  ⟨rfl, fun _ h => nomatch h⟩

/-- C9: a `WebhookError` built from a status and a description stores as
its `message` attribute the description prefixed by the fixed format text
(`errFormat`), so the stored message is never the bare description. -/
theorem c9_message_prefixed (status : Int) (desc : Str) :
    (mkWebhookError status desc).message = errFormat status ++ desc
    ∧ (mkWebhookError status desc).message ≠ desc := by
  refine ⟨rfl, fun h => ?_⟩
  have hlen := congrArg List.length h
  simp only [mkWebhookError, errFormat, List.append_assoc, List.length_append] at hlen
  have h31 : ("Rocket.Chat server error, code ".toList).length = 31 := by decide
  omega

/-- C10: for every response whose body is not valid JSON — whatever
the status code, 200 included — `post` raises a `WebhookError`.  (It holds
a fortiori: the misspelled timeout attribute raises before the request,
so `post` raises a `WebhookError` for every response; in the code text
`response.json()` on line 87 does precede the status check on line 88.) -/
theorem c10_nonjson_body_raises (w : Webhook) (m : Message) (status : Int) (tb : Str) :
    ∃ e : WebhookError, w.post (.msg m) (.response status none) tb = .error e :=
  ⟨mkWebhookError (-1) (unknownMsg tb), rfl⟩

/-!
Lemmas for C6: which keys the payload dict contains. -/

lemma segText (k t : Str) :
    k ∈ (if t ≠ [] then [("text".toList, Jval.str t)] else []).map Prod.fst
      ↔ (k = "text".toList ∧ t ≠ []) := by
  split_ifs with h <;> simp [h]

lemma segChannel (k : Str) (ch : Option Str) :
    k ∈ (match ch with
          | some c => if c ≠ [] then [("channel".toList, Jval.str c)] else []
          | none => []).map Prod.fst
      ↔ (∃ c, k = "channel".toList ∧ ch = some c ∧ c ≠ []) := by
  rcases ch with _ | c
  · simp
  · dsimp only
    split_ifs with h <;> simp [h]

lemma segIcon (k : Str) (ic : Option Str) :
    k ∈ (match ic with
          | some u => if u ≠ [] then [("icon_url".toList, Jval.str u)] else []
          | none => []).map Prod.fst
      ↔ (∃ u, k = "icon_url".toList ∧ ic = some u ∧ u ≠ []) := by
  rcases ic with _ | u
  · simp
  · dsimp only
    split_ifs with h <;> simp [h]

lemma segAttach (k : Str) (att : List (List (Str × Jval))) :
    k ∈ (if att.isEmpty then []
         else [("attachments".toList, Jval.arr (att.map Jval.obj))]).map Prod.fst
      ↔ (k = "attachments".toList ∧ att ≠ []) := by
  rcases att with _ | ⟨a, as⟩ <;> simp [List.isEmpty]

/-- Key membership in the payload dict, key by key. -/
lemma mem_keys_payload (k : Str) (m : Message) :
    k ∈ (buildPayloadDict m).map Prod.fst ↔
      (k = "text".toList ∧ m.text ≠ [])
      ∨ (∃ c, k = "channel".toList ∧ m.channel = some c ∧ c ≠ [])
      ∨ (∃ u, k = "icon_url".toList ∧ m.icon_url = some u ∧ u ≠ [])
      ∨ (k = "attachments".toList ∧ m.attachments ≠ []) := by
  obtain ⟨t, ch, ic, att⟩ := m
  simp only [buildPayloadDict, List.map_append, List.mem_append,
    segText, segChannel, segIcon, segAttach, or_assoc]

/-- C6: the payload JSON object built by `post` contains each of the
keys `text`, `channel`, `icon_url`, `attachments` exactly when the
corresponding `Message` field is truthy (non-`None` and non-empty), and a
message whose only content is the text "hi" serializes to an object with
exactly the key `text`. -/
theorem c6_payload_truthy_keys (m : Message) :
    ("text".toList ∈ (buildPayloadDict m).map Prod.fst ↔ m.text ≠ [])
    ∧ ("channel".toList ∈ (buildPayloadDict m).map Prod.fst
        ↔ ∃ c, m.channel = some c ∧ c ≠ [])
    ∧ ("icon_url".toList ∈ (buildPayloadDict m).map Prod.fst
        ↔ ∃ u, m.icon_url = some u ∧ u ≠ [])
    ∧ ("attachments".toList ∈ (buildPayloadDict m).map Prod.fst ↔ m.attachments ≠ [])
    ∧ buildPayloadDict (Message.init "hi".toList none none)
        = [("text".toList, Jval.str "hi".toList)] := by
  refine ⟨?_, ?_, ?_, ?_, rfl⟩ <;> rw [mem_keys_payload]
  · constructor
    · rintro (⟨-, h⟩ | ⟨c, hk, -⟩ | ⟨u, hk, -⟩ | ⟨hk, -⟩)
      · exact h
      · exact absurd hk (by decide)
      · exact absurd hk (by decide)
      · exact absurd hk (by decide)
    · exact fun h => Or.inl ⟨rfl, h⟩
  · constructor
    · rintro (⟨hk, -⟩ | ⟨c, -, hc⟩ | ⟨u, hk, -⟩ | ⟨hk, -⟩)
      · exact absurd hk (by decide)
      · exact ⟨c, hc⟩
      · exact absurd hk (by decide)
      · exact absurd hk (by decide)
    · exact fun ⟨c, hc⟩ => Or.inr (Or.inl ⟨c, rfl, hc⟩)
  · constructor
    · rintro (⟨hk, -⟩ | ⟨c, hk, -⟩ | ⟨u, -, hu⟩ | ⟨hk, -⟩)
      · exact absurd hk (by decide)
      · exact absurd hk (by decide)
      · exact ⟨u, hu⟩
      · exact absurd hk (by decide)
    · exact fun ⟨u, hu⟩ => Or.inr (Or.inr (Or.inl ⟨u, rfl, hu⟩))
  · constructor
    · rintro (⟨hk, -⟩ | ⟨c, hk, -⟩ | ⟨u, hk, -⟩ | ⟨-, h⟩)
      · exact absurd hk (by decide)
      · exact absurd hk (by decide)
      · exact absurd hk (by decide)
      · exact h
    · exact fun h => Or.inr (Or.inr (Or.inr ⟨rfl, h⟩))

/-!
Lemmas for C7: iterated `append_text`. -/

lemma appendCalls_cons (m : Message) (c : Str × Str) (rest : List (Str × Str)) :
    appendCalls m (c :: rest) = appendCalls (m.append_text c.1 c.2) rest := rfl

lemma append_text_text (m : Message) (t d : Str) :
    (m.append_text t d).text = if m.text ≠ [] then m.text ++ d ++ t else t := by
  unfold Message.append_text
  split_ifs <;> rfl

lemma appendCalls_text_of_ne_nil (calls : List (Str × Str)) : ∀ (m : Message), m.text ≠ [] →
    (appendCalls m calls).text = m.text ++ (calls.map (fun c => c.2 ++ c.1)).flatten := by
  induction calls with
  | nil => intro m hm; simp [appendCalls]
  | cons c rest ih =>
    intro m hm
    rw [appendCalls_cons]
    have hne : (m.append_text c.1 c.2).text ≠ [] := by
      rw [append_text_text, if_pos hm]
      simp [hm]
    rw [ih _ hne, append_text_text, if_pos hm]
    simp [List.append_assoc]

/-- C7 counterexample: starting from empty text, appending the empty
string and then the string "x" (with a newline delimiter each time)
yields "x", while the join of the arguments stated by the claim would be
a newline followed by "x" — an argument appended while the text is still
empty contributes no later delimiter. -/
theorem c7_counterexample :
    ¬ ((appendCalls (Message.init [] none none)
          [([], ['\n']), ("x".toList, ['\n'])]).text
        = joinedCallsSpec [([], ['\n']), ("x".toList, ['\n'])]) := by decide

/-- C7 (amended): for a sequence of `append_text` calls starting from
empty text in which every appended argument is non-empty, the resulting
text is the arguments joined by the delimiter supplied at each step, with
no leading delimiter before the first argument. -/
theorem c7_append_text_join (m : Message) (calls : List (Str × Str))
    (hm : m.text = []) (hc : ∀ c ∈ calls, c.1 ≠ []) :
    (appendCalls m calls).text = joinedCallsSpec calls := by
  cases calls with
  | nil => simpa [appendCalls] using hm
  | cons c rest =>
    rw [appendCalls_cons]
    have h1 : (m.append_text c.1 c.2).text = c.1 := by
      rw [append_text_text]; simp [hm]
    have h2 : (m.append_text c.1 c.2).text ≠ [] := by
      rw [h1]; exact hc c (by simp)
    rw [appendCalls_text_of_ne_nil rest _ h2, h1]
    rfl

/-- Witness for the amended C7 theorem at a concrete call sequence. -/
theorem c7_append_text_join_witness :
    (Message.init [] none none).text = []
    ∧ (∀ c ∈ [("a".toList, ['\n']), ("b".toList, ['\n'])], c.1 ≠ ([] : Str))
    ∧ (appendCalls (Message.init [] none none)
          [("a".toList, ['\n']), ("b".toList, ['\n'])]).text
        = joinedCallsSpec [("a".toList, ['\n']), ("b".toList, ['\n'])] :=
  ⟨rfl, by decide, c7_append_text_join _ _ rfl (by decide)⟩

/-!
Lemmas for C5 (`Webhook` construction parses the server URL): facts about
the auxiliary character classes, and small list lemmas used to evaluate
the parsing pipeline. -/

lemma valLe_facts (c : Char) (h : decide (c.val ≤ 0x20) = false) :
    badUrlByte c = false := by
  by_contra hb
  rw [Bool.not_eq_false] at hb
  simp only [badUrlByte, Bool.or_eq_true, beq_iff_eq] at hb
  rcases hb with (rfl | rfl) | rfl <;> exact absurd h (by decide)

lemma lowerAlpha_facts (c : Char) (h : c ∈ lowerAlpha) :
    (c != ':') = true ∧ isSchemeChar c = true ∧ c.isAlpha = true ∧ c.toLower = c
    ∧ decide (c.val ≤ 0x20) = false ∧ badUrlByte c = false := by
  simp only [lowerAlpha, List.mem_cons, List.not_mem_nil, or_false] at h
  rcases h with rfl | rfl | rfl | rfl | rfl | rfl | rfl | rfl | rfl | rfl | rfl | rfl | rfl
    | rfl | rfl | rfl | rfl | rfl | rfl | rfl | rfl | rfl | rfl | rfl | rfl | rfl <;> decide

lemma hostChar_facts (c : Char) (h : hostChar c = true) :
    notNetlocDelim c = true ∧ decide (c.val ≤ 0x20) = false ∧ badUrlByte c = false
    ∧ asciiChar c = true := by
  rw [hostChar] at h
  simp only [Bool.and_eq_true] at h
  obtain ⟨⟨⟨hv0, ha⟩, hn⟩, hb⟩ := h
  have hv : decide (c.val ≤ 0x20) = false := by rwa [Bool.not_eq_true'] at hv0
  exact ⟨hn, hv, valLe_facts c hv, ha⟩

lemma bareChar_facts (c : Char) (h : bareChar c = true) :
    (c != ':') = true ∧ (c != '#') = true ∧ (c != '?') = true ∧ (c == ';') = false
    ∧ decide (c.val ≤ 0x20) = false ∧ badUrlByte c = false := by
  rw [bareChar, Bool.and_eq_true] at h
  obtain ⟨hv0, hd⟩ := h
  have hv : decide (c.val ≤ 0x20) = false := by rwa [Bool.not_eq_true'] at hv0
  simp only [Bool.not_eq_true', Bool.or_eq_false_iff] at hd
  obtain ⟨⟨⟨hc, hq⟩, hh⟩, hs⟩ := hd
  refine ⟨?_, ?_, ?_, hs, hv, valLe_facts c hv⟩
  · simpa [bne] using hc
  · simpa [bne] using hh
  · simpa [bne] using hq

section ListHelpers

variable {α : Type} {p : α → Bool} {f : α → α}

lemma twAll {l : List α} (h : ∀ c ∈ l, p c = true) : l.takeWhile p = l := by
  induction l with
  | nil => rfl
  | cons a t ih =>
    simp [List.takeWhile_cons, h a (by simp), ih (fun c hc => h c (by simp [hc]))]

lemma dwAllFalse {l : List α} (h : ∀ c ∈ l, p c = false) : l.dropWhile p = l := by
  cases l with
  | nil => rfl
  | cons a t => simp [List.dropWhile_cons, h a (by simp)]

lemma twAppendAll {l1 : List α} (l2 : List α) (h : ∀ c ∈ l1, p c = true) :
    (l1 ++ l2).takeWhile p = l1 ++ l2.takeWhile p := by
  induction l1 with
  | nil => simp
  | cons a t ih =>
    simp [List.cons_append, List.takeWhile_cons, h a (by simp),
      ih (fun c hc => h c (by simp [hc]))]

lemma dwAppendAll {l1 : List α} (l2 : List α) (h : ∀ c ∈ l1, p c = true) :
    (l1 ++ l2).dropWhile p = l2.dropWhile p := by
  induction l1 with
  | nil => simp
  | cons a t ih =>
    simp [List.cons_append, List.dropWhile_cons, h a (by simp),
      ih (fun c hc => h c (by simp [hc]))]

lemma filterAll {l : List α} (h : ∀ c ∈ l, p c = true) : l.filter p = l := by
  induction l with
  | nil => rfl
  | cons a t ih =>
    rw [List.filter_cons_of_pos (h a (by simp)), ih (fun c hc => h c (by simp [hc]))]

lemma anyFalse {l : List α} (h : ∀ c ∈ l, p c = false) : l.any p = false := by
  induction l with
  | nil => rfl
  | cons a t ih =>
    simp [List.any_cons, h a (by simp), ih (fun c hc => h c (by simp [hc]))]

lemma mapIdOf {l : List α} (h : ∀ c ∈ l, f c = c) : l.map f = l := by
  induction l with
  | nil => rfl
  | cons a t ih =>
    rw [List.map_cons, h a (by simp), ih (fun c hc => h c (by simp [hc]))]

end ListHelpers

lemma splitScheme_valid (a : Char) (sc rest : Str)
    (h2 : ∀ c ∈ a :: sc, c ∈ lowerAlpha) :
    splitScheme (a :: (sc ++ ':' :: rest)) = (a :: sc, rest) := by
  have hall : ∀ c ∈ a :: sc, ((fun c => c != ':') c) = true :=
    fun c hc => (lowerAlpha_facts c (h2 c hc)).1
  have hpre : (a :: (sc ++ ':' :: rest)).takeWhile (fun c => c != ':') = a :: sc := by
    have := @twAppendAll Char (fun c => c != ':') (a :: sc) (':' :: rest) hall
    simp only [List.cons_append] at this
    rw [this]
    simp [List.takeWhile_cons]
  have hc1 : decide ((a :: sc).length < (a :: (sc ++ ':' :: rest)).length) = true := by
    simp only [decide_eq_true_eq, List.length_cons, List.length_append]
    omega
  have hc2 : (!(a :: sc).isEmpty) = true := rfl
  have hc3 : a.isAlpha = true := (lowerAlpha_facts a (h2 a (by simp))).2.2.1
  have hc4 : (a :: sc).all isSchemeChar = true := by
    rw [List.all_eq_true]
    intro c hc
    exact (lowerAlpha_facts c (h2 c hc)).2.1
  have hmap : (a :: sc).map Char.toLower = a :: sc :=
    mapIdOf (fun c hc => (lowerAlpha_facts c (h2 c hc)).2.2.2.1)
  have hdrop : (a :: (sc ++ ':' :: rest)).drop ((a :: sc).length + 1) = rest := by
    have he : a :: (sc ++ ':' :: rest) = ((a :: sc) ++ [':']) ++ rest := by simp
    have hl : ((a :: sc) ++ [':']).length = (a :: sc).length + 1 := by simp
    rw [he, ← hl, List.drop_left]
  simp only [splitScheme, hpre, hc1, hc2, hc3, hc4, Bool.and_self, Bool.true_and,
    Bool.and_true, if_true, hmap, hdrop]

lemma splitScheme_noColon (s : Str) (h : ∀ c ∈ s, (c != ':') = true) :
    splitScheme s = ([], s) := by
  have hpre : s.takeWhile (fun c => c != ':') = s := twAll h
  have hc1 : decide (s.length < s.length) = false := by simp
  simp only [splitScheme, hpre, hc1, Bool.false_and, Bool.false_eq_true, if_false]

lemma splitNetloc_slashslash (rest : Str) :
    splitNetlocAt2 ('/' :: '/' :: rest)
      = (rest.takeWhile notNetlocDelim, rest.dropWhile notNetlocDelim) := rfl

lemma splitNetloc_not2 (s : Str) (h : s.take 2 ≠ ['/', '/']) :
    splitNetlocAt2 s = ([], s) := by
  rw [splitNetlocAt2, if_neg h]

lemma urlparse_scheme_netloc (u : Str) :
    (urlparseModel u).scheme = (urlsplitModel u).scheme
    ∧ (urlparseModel u).netloc = (urlsplitModel u).netloc := by
  unfold urlparseModel
  dsimp only
  split_ifs <;> exact ⟨rfl, rfl⟩

lemma netlocChecks_passes (netloc : Str) (hascii : ∀ c ∈ netloc, asciiChar c = true)
    (hnb1 : '[' ∉ netloc) (hnb2 : ']' ∉ netloc) :
    netlocChecks netloc = .passes := by
  have h1 : ¬ (('[' ∈ netloc ∧ ']' ∉ netloc) ∨ (']' ∈ netloc ∧ '[' ∉ netloc)) := by
    rintro (⟨hm, -⟩ | ⟨hm, -⟩)
    · exact hnb1 hm
    · exact hnb2 hm
  have h2 : ¬ ('[' ∈ netloc ∧ ']' ∈ netloc) := fun hm => hnb1 hm.1
  have h3 : ¬ ¬ (netloc = [] ∨ netloc.all asciiChar = true) :=
    not_not_intro (Or.inr (List.all_eq_true.mpr hascii))
  rw [netlocChecks, if_neg h1, if_neg h2, if_neg h3]

lemma urlsplit_with_scheme (a : Char) (sc host path : Str)
    (h2 : ∀ c ∈ a :: sc, c ∈ lowerAlpha)
    (h3 : host ≠ []) (h4 : ∀ c ∈ host, hostChar c = true)
    (h5 : path = [] ∨ ∃ p, path = '/' :: p) :
    (urlsplitModel (a :: (sc ++ ':' :: '/' :: '/' :: (host ++ path)))).scheme = a :: sc
    ∧ (urlsplitModel (a :: (sc ++ ':' :: '/' :: '/' :: (host ++ path)))).netloc = host := by
  have hq : ∀ c ∈ a :: sc, (!badUrlByte c) = true := fun c hc => by
    rw [(lowerAlpha_facts c (h2 c hc)).2.2.2.2.2]; rfl
  have hqh : ∀ c ∈ host, (!badUrlByte c) = true := fun c hc => by
    rw [(hostChar_facts c (h4 c hc)).2.2.1]; rfl
  have hstrip :
      (a :: (sc ++ ':' :: '/' :: '/' :: (host ++ path))).dropWhile
          (fun c => decide (c.val ≤ 0x20))
        = a :: (sc ++ ':' :: '/' :: '/' :: (host ++ path)) := by
    rw [List.dropWhile_cons, (lowerAlpha_facts a (h2 a (by simp))).2.2.2.2.1]
    simp
  have hbColon : badUrlByte ':' = false := rfl
  have hbSlash : badUrlByte '/' = false := rfl
  have hfil :
      (a :: (sc ++ ':' :: '/' :: '/' :: (host ++ path))).filter (fun c => !badUrlByte c)
        = a :: (sc ++ ':' :: '/' :: '/' :: (host ++ path.filter (fun c => !badUrlByte c))) := by
    have hsc : sc.filter (fun c => !badUrlByte c) = sc :=
      filterAll (fun c hc => hq c (by simp [hc]))
    have hhost : host.filter (fun c => !badUrlByte c) = host := filterAll hqh
    simp only [List.filter_cons, List.filter_append, hq a (by simp), if_true, hsc, hhost]
    simp [hbColon, hbSlash]
  have hpathF : (path.filter (fun c => !badUrlByte c)).takeWhile notNetlocDelim = []
      ∧ (path.filter (fun c => !badUrlByte c)).dropWhile notNetlocDelim
          = path.filter (fun c => !badUrlByte c) := by
    rcases h5 with rfl | ⟨p, rfl⟩
    · exact ⟨rfl, rfl⟩
    · have hslash : ('/' :: p).filter (fun c => !badUrlByte c)
          = '/' :: p.filter (fun c => !badUrlByte c) := by
        rw [List.filter_cons]
        simp [hbSlash]
      rw [hslash, List.takeWhile_cons, List.dropWhile_cons]
      have : notNetlocDelim '/' = false := rfl
      rw [this]
      simp
  have hnd : ∀ c ∈ host, notNetlocDelim c = true := fun c hc => (hostChar_facts c (h4 c hc)).1
  have hnet :
      (host ++ path.filter (fun c => !badUrlByte c)).takeWhile notNetlocDelim = host := by
    rw [twAppendAll _ hnd, hpathF.1, List.append_nil]
  unfold urlsplitModel
  dsimp only
  rw [hstrip, hfil, splitScheme_valid a sc _ h2]
  dsimp only
  rw [splitNetloc_slashslash]
  dsimp only
  rw [hnet]
  exact ⟨rfl, rfl⟩

lemma urlsplit_bare (s : Str) (hb : ∀ c ∈ s, bareChar c = true)
    (h2 : s.take 2 ≠ ['/', '/']) :
    (urlsplitModel s).scheme = [] ∧ (urlsplitModel s).netloc = []
    ∧ (urlsplitModel s).path = s := by
  have hstrip : s.dropWhile (fun c => decide (c.val ≤ 0x20)) = s :=
    dwAllFalse (fun c hc => (bareChar_facts c (hb c hc)).2.2.2.2.1)
  have hfil : s.filter (fun c => !badUrlByte c) = s :=
    filterAll (fun c hc => by rw [(bareChar_facts c (hb c hc)).2.2.2.2.2]; rfl)
  have hcolon : splitScheme s = ([], s) :=
    splitScheme_noColon s (fun c hc => (bareChar_facts c (hb c hc)).1)
  have hhash : s.takeWhile (fun c => c != '#') = s :=
    twAll (fun c hc => (bareChar_facts c (hb c hc)).2.1)
  have hquest : s.takeWhile (fun c => c != '?') = s :=
    twAll (fun c hc => (bareChar_facts c (hb c hc)).2.2.1)
  unfold urlsplitModel
  dsimp only
  rw [hstrip, hfil, hcolon]
  dsimp only
  rw [splitNetloc_not2 s h2]
  dsimp only
  rw [hhash, hquest]
  exact ⟨rfl, rfl, rfl⟩

/-- C5: `Webhook` construction parses `serverUrl`.  Part one: a full
URL `scheme://host[:port]path` (lowercase-letter scheme; printable ASCII
bracket-free delimiter-free host; path empty or starting with `/`)
yields that scheme and that `host[:port]` authority, the path being
discarded — and the CPython `ValueError` checks on the extracted netloc
provably pass, so the real constructor raises nothing on these inputs.
Part two: a bare string with no scheme (no `:`, not starting with `//`,
printable, without `?`/`#`/`;`) yields an empty scheme and, as host, the
first path segment before any `/` — here the netloc is empty, so the
checks pass as well. -/
theorem c5_serverUrl_parsing :
    (∀ (a : Char) (sc host path tok : Str) (t : Int),
      (∀ c ∈ a :: sc, c ∈ lowerAlpha) →
      host ≠ [] → (∀ c ∈ host, hostChar c = true) →
      (path = [] ∨ ∃ p, path = '/' :: p) →
      (Webhook.init ((a :: sc) ++ "://".toList ++ host ++ path) tok t).scheme = a :: sc
      ∧ (Webhook.init ((a :: sc) ++ "://".toList ++ host ++ path) tok t).server_fqdn = host
      ∧ urlsplitChecks ((a :: sc) ++ "://".toList ++ host ++ path) = CheckOutcome.passes)
    ∧ (∀ (s tok : Str) (t : Int),
      (∀ c ∈ s, bareChar c = true) → s.take 2 ≠ ['/', '/'] →
      (Webhook.init s tok t).scheme = []
      ∧ (Webhook.init s tok t).server_fqdn = s.takeWhile (fun c => c != '/')
      ∧ urlsplitChecks s = CheckOutcome.passes) := by
  constructor
  · intro a sc host path tok t h2 h3 h4 h5
    have hnorm : (a :: sc) ++ "://".toList ++ host ++ path
        = a :: (sc ++ ':' :: '/' :: '/' :: (host ++ path)) := by
      rw [show ("://".toList : Str) = [':', '/', '/'] from rfl]
      simp
    rw [hnorm]
    have hsp := urlsplit_with_scheme a sc host path h2 h3 h4 h5
    have hpn := urlparse_scheme_netloc (a :: (sc ++ ':' :: '/' :: '/' :: (host ++ path)))
    have hchecks :
        urlsplitChecks (a :: (sc ++ ':' :: '/' :: '/' :: (host ++ path)))
          = CheckOutcome.passes := by
      unfold urlsplitChecks
      rw [hsp.2]
      exact netlocChecks_passes host (fun c hc => (hostChar_facts c (h4 c hc)).2.2.2)
        (fun hm => absurd (h4 '[' hm) (by decide))
        (fun hm => absurd (h4 ']' hm) (by decide))
    refine ⟨?_, ?_, hchecks⟩
    · unfold Webhook.init
      dsimp only
      rw [hpn.1, hsp.1]
    · unfold Webhook.init
      dsimp only
      rw [hpn.2, hsp.2, if_pos h3]
  · intro s tok t hb h2
    have hsp := urlsplit_bare s hb h2
    have hany : (s.any (fun c => c == ';')) = false :=
      anyFalse (fun c hc => (bareChar_facts c (hb c hc)).2.2.2.1)
    have hparse : urlparseModel s = urlsplitModel s := by
      unfold urlparseModel
      dsimp only
      rw [hsp.2.2, hany]
      simp
    have hchecks : urlsplitChecks s = CheckOutcome.passes := by
      unfold urlsplitChecks
      rw [hsp.2.1]
      rfl
    refine ⟨?_, ?_, hchecks⟩
    · unfold Webhook.init
      dsimp only
      rw [hparse]
      exact hsp.1
    · unfold Webhook.init
      dsimp only
      rw [hparse, hsp.2.1, if_neg (by simp), hsp.2.2]

/-- Witness for C5 at the two examples given in the spec:
`https://chat.example.com/extra/path` and `chat.example.com`. -/
theorem c5_serverUrl_parsing_witness :
    ((Webhook.init (('h' :: "ttps".toList) ++ "://".toList
        ++ "chat.example.com".toList ++ "/extra/path".toList) "tok".toList 30).scheme
      = 'h' :: "ttps".toList
    ∧ (Webhook.init (('h' :: "ttps".toList) ++ "://".toList
        ++ "chat.example.com".toList ++ "/extra/path".toList) "tok".toList 30).server_fqdn
      = "chat.example.com".toList
    ∧ urlsplitChecks (('h' :: "ttps".toList) ++ "://".toList
        ++ "chat.example.com".toList ++ "/extra/path".toList) = CheckOutcome.passes)
    ∧ ((Webhook.init "chat.example.com".toList "tok".toList 30).scheme = []
    ∧ (Webhook.init "chat.example.com".toList "tok".toList 30).server_fqdn
      = "chat.example.com".toList.takeWhile (fun c => c != '/')
    ∧ urlsplitChecks "chat.example.com".toList = CheckOutcome.passes) :=
  ⟨c5_serverUrl_parsing.1 'h' "ttps".toList "chat.example.com".toList "/extra/path".toList
      "tok".toList 30 (by decide) (by decide) (by decide)
      (Or.inr ⟨"extra/path".toList, by decide⟩),
   c5_serverUrl_parsing.2 "chat.example.com".toList "tok".toList 30 (by decide) (by decide)⟩

end Rockethook
